import Mathlib

/-!
Shallow embedding of the Crates publish plugin (`plugin.go`): the
configuration record, `cargo publish` argument construction, the path and
registry validators, and the `publish` orchestration, together with
theorems checking the specification's claims against these definitions.

String algorithms are carried out on the underlying character lists with
structural recursion so every definition evaluates by kernel reduction.
The target platform is Unix: the path separator is `'/'`.
-/

namespace Crates

/-- Mirrors the Go `Config` struct of `plugin.go`.  `jobs` is a Go `int`,
modelled as `Int`. -/
structure Config where
  token : String
  registry : String
  allowDirty : Bool
  noVerify : Bool
  manifestPath : String
  features : List String
  allFeatures : Bool
  noDefaultFeatures : Bool
  jobs : Int
deriving Repr, DecidableEq

/-- `strings.Join xs sep` from the Go standard library. -/
def goJoin (sep : String) : List String → String
  | [] => ""
  | [x] => x
  | x :: xs => x ++ sep ++ goJoin sep xs

/-- `buildPublishArgs` from `plugin.go` (lines 183-232): the sequential
append of each flag group, guarded exactly as in the source. -/
def buildPublishArgs (cfg : Config) : List String :=
  let args := ["publish"]
  let args := if cfg.token ≠ "" then args ++ ["--token", cfg.token] else args
  let args := if cfg.registry ≠ "" then args ++ ["--registry", cfg.registry] else args
  let args := if cfg.allowDirty then args ++ ["--allow-dirty"] else args
  let args := if cfg.noVerify then args ++ ["--no-verify"] else args
  let args := if cfg.manifestPath ≠ "" ∧ cfg.manifestPath ≠ "Cargo.toml" then
    args ++ ["--manifest-path", cfg.manifestPath] else args
  let args := if cfg.features.length > 0 then
    args ++ ["--features", goJoin "," cfg.features] else args
  let args := if cfg.allFeatures then args ++ ["--all-features"] else args
  let args := if cfg.noDefaultFeatures then args ++ ["--no-default-features"] else args
  let args := if cfg.jobs > 0 then args ++ ["--jobs", toString cfg.jobs] else args
  args

/-- The reference argument sequence written from the specification's words
(spec §3, §4.2): the subcommand followed, in the fixed order, by exactly
those flag groups whose field is non-default (`true` / non-empty / `> 0`;
for the manifest path, non-default means non-empty and different from the
default `"Cargo.toml"`). -/
def publishArgsSpec (cfg : Config) : List String :=
  ["publish"]
  ++ (if cfg.token ≠ "" then ["--token", cfg.token] else [])
  ++ (if cfg.registry ≠ "" then ["--registry", cfg.registry] else [])
  ++ (if cfg.allowDirty then ["--allow-dirty"] else [])
  ++ (if cfg.noVerify then ["--no-verify"] else [])
  ++ (if cfg.manifestPath ≠ "" ∧ cfg.manifestPath ≠ "Cargo.toml" then
        ["--manifest-path", cfg.manifestPath] else [])
  ++ (if cfg.features.length > 0 then ["--features", goJoin "," cfg.features] else [])
  ++ (if cfg.allFeatures then ["--all-features"] else [])
  ++ (if cfg.noDefaultFeatures then ["--no-default-features"] else [])
  ++ (if cfg.jobs > 0 then ["--jobs", toString cfg.jobs] else [])

/-- Pulling the common accumulator out of a guarded append. -/
theorem ite_append_out (c : Prop) [Decidable c] (a l : List String) :
    (if c then a ++ l else a) = a ++ (if c then l else []) := by
  split <;> simp

/-- C6: for every configuration, `buildPublishArgs` equals the reference
sequence: the subcommand `"publish"`, then in the fixed order exactly those
flags whose field is non-default, each flag present if and only if its
guard holds; the construction is a pure function, hence deterministic. -/
theorem buildPublishArgs_eq_spec (cfg : Config) :
    buildPublishArgs cfg = publishArgsSpec cfg := by
  simp only [buildPublishArgs, publishArgsSpec]
  rw [ite_append_out, ite_append_out, ite_append_out, ite_append_out, ite_append_out,
    ite_append_out, ite_append_out, ite_append_out, ite_append_out]

/-! ### Path validation (`validatePath`, `filepath.Clean`, `filepath.Dir`) -/

/-- `strings.HasPrefix s p` from the Go standard library. -/
def goStartsWith (s p : String) : Bool := List.isPrefixOf p.data s.data

/-- `l₁` occurs as a contiguous run inside `l₂` (Boolean, structural). -/
def listHasInfix (needle : List Char) : List Char → Bool
  | [] => needle.isEmpty
  | x :: xs => List.isPrefixOf needle (x :: xs) || listHasInfix needle xs

/-- `strings.Contains s sub` from the Go standard library. -/
def goContains (s sub : String) : Bool := listHasInfix sub.data s.data

/-- `filepath.IsAbs` on Unix: the path begins with the separator. -/
def goIsAbs (p : String) : Bool :=
  match p.data with
  | c :: _ => c == '/'
  | [] => false

/-- Split a character list at every occurrence of `c` (the segment view of a
Unix path used below to model `filepath.Clean`). -/
def splitOnChar (c : Char) : List Char → List (List Char)
  | [] => [[]]
  | x :: xs =>
    let r := splitOnChar c xs
    if x == c then [] :: r
    else
      match r with
      | h :: t => (x :: h) :: t
      | [] => [[x]]

/-- The segment-processing loop of Go `filepath.Clean` on Unix, head of
`stack` being the most recently kept segment: empty and `"."` segments are
dropped; `".."` pops a non-`".."` segment, is dropped at the root, and is
kept otherwise; other segments are kept. -/
def cleanLoop (rooted : Bool) : List (List Char) → List (List Char) → List (List Char)
  | stack, [] => stack
  | stack, seg :: rest =>
    if seg = [] ∨ seg = ['.'] then cleanLoop rooted stack rest
    else if seg = ['.', '.'] then
      match stack with
      | [] => cleanLoop rooted (if rooted then [] else [['.', '.']]) rest
      | top :: stk =>
        if top = ['.', '.'] then cleanLoop rooted (seg :: stack) rest
        else cleanLoop rooted stk rest
    else cleanLoop rooted (seg :: stack) rest

/-- Join segments with the separator `'/'`. -/
def joinSegs : List (List Char) → List Char
  | [] => []
  | [s] => s
  | s :: rest => s ++ '/' :: joinSegs rest

/-- `filepath.Clean` on Unix (pure lexical processing): empty path cleans to
`"."`; otherwise segments are processed by `cleanLoop` and rejoined, with a
leading separator restored for rooted paths and an empty relative result
replaced by `"."`. -/
def goPathClean (p : String) : String :=
  if p = "" then "."
  else
    let rooted := goIsAbs p
    let stack := cleanLoop rooted [] (splitOnChar '/' p.data)
    let body := joinSegs stack.reverse
    if rooted then String.mk ('/' :: body)
    else if body = [] then "." else String.mk body

/-- `validatePath` from `plugin.go` (lines 260-279); `none` is the nil
error, `some` carries the Go error message. -/
def validatePath (path : String) : Option String :=
  if path = "" then none
  else
    let cleaned := goPathClean path
    if goIsAbs cleaned then some "absolute paths are not allowed"
    else if goStartsWith cleaned ".." || goContains cleaned "/.." then
      some "path traversal detected: cannot use '..' to escape working directory"
    else none

/-- `filepath.Dir` on Unix: everything up to and including the final
separator, cleaned; a path without separator gives `"."`. -/
def goDir (p : String) : String :=
  match (p.data.reverse.findIdx? (fun c => c == '/')) with
  | some j => goPathClean (String.mk (p.data.take (p.data.length - j)))
  | none => goPathClean ""

/-- The rejection predicate of claim C4 as stated: the path is absolute, or
the cleaned form starts with a parent-directory segment `".."`, or contains
a `".."` path segment (segments read between separators). -/
def c4ClaimRejects (path : String) : Bool :=
  goIsAbs path || (splitOnChar '/' (goPathClean path).data).contains ['.', '.']

/-- A segment kept by `cleanLoop`: nonempty and free of the separator. -/
def GoodSeg (s : List Char) : Prop := s ≠ [] ∧ '/' ∉ s

theorem splitOnChar_not_mem (c : Char) (l : List Char) :
    ∀ s ∈ splitOnChar c l, c ∉ s := by
  induction l with
  | nil => simp [splitOnChar]
  | cons x xs ih =>
    simp only [splitOnChar]
    by_cases hx : x == c
    · simp only [hx, if_true]
      intro s hs
      rcases List.mem_cons.mp hs with h | h
      · subst h; simp
      · exact ih s h
    · simp only [hx, Bool.false_eq_true, if_false]
      have hxc : x ≠ c := by simpa using hx
      cases hr : splitOnChar c xs with
      | nil => intro s hs; simp at hs; subst hs; simpa using fun h => hxc h.symm
      | cons hh tt =>
        intro s hs
        rcases List.mem_cons.mp hs with h | h
        · subst h
          intro hmem
          rcases List.mem_cons.mp hmem with h' | h'
          · exact hxc h'.symm
          · have := ih hh (by rw [hr]; exact List.mem_cons_self _ _)
            exact this h'
        · exact ih s (by rw [hr]; exact List.mem_cons_of_mem _ h)

theorem cleanLoop_good (rooted : Bool) :
    ∀ segs stack, (∀ s ∈ stack, GoodSeg s) → (∀ s ∈ segs, '/' ∉ s) →
      ∀ s ∈ cleanLoop rooted stack segs, GoodSeg s := by
  intro segs
  induction segs with
  | nil => intro stack hst _ s hs; exact hst s hs
  | cons seg rest ih =>
    intro stack hst hsegs
    have hrest : ∀ s ∈ rest, '/' ∉ s := fun s hs => hsegs s (List.mem_cons_of_mem _ hs)
    simp only [cleanLoop]
    by_cases h1 : seg = [] ∨ seg = ['.']
    · rw [if_pos h1]; exact ih stack hst hrest
    · rw [if_neg h1]
      by_cases h2 : seg = ['.', '.']
      · rw [if_pos h2]
        cases stack with
        | nil =>
          cases rooted with
          | true => exact ih [] (by simp) hrest
          | false =>
            refine ih [['.', '.']] ?_ hrest
            intro s hs
            simp only [List.mem_singleton] at hs
            subst hs
            exact ⟨by simp, by simp⟩
        | cons top stk =>
          dsimp only
          by_cases h3 : top = ['.', '.']
          · rw [if_pos h3]
            refine ih (seg :: top :: stk) ?_ hrest
            intro s hs
            rcases List.mem_cons.mp hs with h | h
            · subst h; rw [h2]; exact ⟨by simp, by simp⟩
            · exact hst s h
          · rw [if_neg h3]
            exact ih stk (fun s hs => hst s (List.mem_cons_of_mem _ hs)) hrest
      · rw [if_neg h2]
        refine ih (seg :: stack) ?_ hrest
        intro s hs
        rcases List.mem_cons.mp hs with h | h
        · subst h
          push_neg at h1
          exact ⟨h1.1, hsegs s (List.mem_cons_self _ _)⟩
        · exact hst s h

theorem joinSegs_head (l : List (List Char)) (hl : l ≠ []) (hg : ∀ s ∈ l, GoodSeg s) :
    ∃ c cs, joinSegs l = c :: cs ∧ c ≠ '/' := by
  match l, hl with
  | [s], _ =>
    obtain ⟨hne, hmem⟩ := hg s (List.mem_cons_self _ _)
    match s, hne with
    | c :: cs, _ =>
      exact ⟨c, cs, rfl, fun h => hmem (h ▸ List.mem_cons_self _ _)⟩
  | s :: s2 :: rest, _ =>
    obtain ⟨hne, hmem⟩ := hg s (List.mem_cons_self _ _)
    match s, hne with
    | c :: cs, _ =>
      refine ⟨c, cs ++ '/' :: joinSegs (s2 :: rest), ?_, fun h => hmem (h ▸ List.mem_cons_self _ _)⟩
      simp [joinSegs]

/-- `filepath.Clean` preserves rootedness: the cleaned form of a nonempty
path is absolute exactly when the path itself is. -/
theorem goPathClean_isAbs (p : String) (h : p ≠ "") :
    goIsAbs (goPathClean p) = goIsAbs p := by
  unfold goPathClean
  rw [if_neg h]
  by_cases hr : goIsAbs p
  · simp only [hr, if_true]
    rfl
  · simp only [hr, Bool.false_eq_true, if_false]
    set stack := cleanLoop false [] (splitOnChar '/' p.data) with hstack
    have hgood : ∀ s ∈ stack.reverse, GoodSeg s := by
      intro s hs
      rw [List.mem_reverse] at hs
      exact cleanLoop_good false (splitOnChar '/' p.data) [] (by simp)
        (splitOnChar_not_mem '/' p.data) s hs
    cases hrev : stack.reverse with
    | nil => decide
    | cons a as =>
      obtain ⟨c, cs, hj, hc⟩ := joinSegs_head (a :: as) (by simp)
        (by rw [← hrev]; exact hgood)
      rw [hj]
      have hne : (c :: cs) ≠ ([] : List Char) := by simp
      rw [if_neg hne]
      simp only [goIsAbs, Bool.false_eq_true]
      exact beq_eq_false_iff_ne.mpr hc

/-- C4 as stated is false at the concrete input `"..foo"`: `validatePath`
rejects it (its cleaned form `"..foo"` starts with the two characters
`".."`), yet `"..foo"` is not absolute and its cleaned form has no `".."`
path segment, so the claimed characterization says it is accepted. -/
theorem c4_counterexample :
    validatePath "..foo" =
      some "path traversal detected: cannot use '..' to escape working directory"
    ∧ c4ClaimRejects "..foo" = false := by decide

/-- C4 (amended): `validatePath` accepts the empty string and `"a/b/c"` and
rejects `"/etc/passwd"`, `"../x"`, and `"a/../../x"`; for every non-empty
path it rejects exactly those paths that are absolute or whose cleaned form
starts with the two-character run `".."` or contains the substring `"/.."`
(string-level checks, which also reject names such as `"..foo"`). -/
theorem validatePath_characterization :
    validatePath "" = none ∧ validatePath "a/b/c" = none ∧
    validatePath "/etc/passwd" ≠ none ∧ validatePath "../x" ≠ none ∧
    validatePath "a/../../x" ≠ none ∧
    ∀ path : String, path ≠ "" →
      (validatePath path = none ↔
        goIsAbs path = false ∧ goStartsWith (goPathClean path) ".." = false ∧
        goContains (goPathClean path) "/.." = false) := by
  refine ⟨by decide, by decide, by decide, by decide, by decide, ?_⟩
  intro path h
  simp only [validatePath, if_neg h]
  rw [← goPathClean_isAbs path h]
  cases hA : goIsAbs (goPathClean path) <;>
    cases hB : goStartsWith (goPathClean path) ".." <;>
    cases hC : goContains (goPathClean path) "/.." <;>
    simp [hA, hB, hC]

/-- Witness for `validatePath_characterization` at the non-empty path
`"x/y"`. -/
theorem validatePath_characterization_witness :
    validatePath "x/y" = none ↔
      goIsAbs "x/y" = false ∧ goStartsWith (goPathClean "x/y") ".." = false ∧
      goContains (goPathClean "x/y") "/.." = false :=
  validatePath_characterization.2.2.2.2.2 "x/y" (by decide)

/-! ### IP addresses (`net.IP` as its byte list) and `isPrivateIP` -/

/-- `net.IP.To4`: a 4-byte address is returned unchanged; a 16-byte
IPv4-mapped address (`::ffff:a.b.c.d`) is reduced to its last 4 bytes;
anything else gives `none` (Go `nil`). -/
def goTo4 (ip : List Nat) : Option (List Nat) :=
  match ip with
  | [a, b, c, d] => some [a, b, c, d]
  | [z0, z1, z2, z3, z4, z5, z6, z7, z8, z9, m0, m1, a, b, c, d] =>
      if z0 = 0 ∧ z1 = 0 ∧ z2 = 0 ∧ z3 = 0 ∧ z4 = 0 ∧ z5 = 0 ∧ z6 = 0 ∧ z7 = 0 ∧
         z8 = 0 ∧ z9 = 0 ∧ m0 = 255 ∧ m1 = 255 then some [a, b, c, d] else none
  | _ => none

/-- Bytewise masked comparison, `false` on length mismatch: the loop of
`net.IPNet.Contains` together with its length guard. -/
def maskedEq : List Nat → List Nat → List Nat → Bool
  | [], [], [] => true
  | n :: ns, m :: ms, b :: bs => (n &&& m == b &&& m) && maskedEq ns ms bs
  | _, _, _ => false

/-- `net.IPNet.Contains`: the address is first reduced by `To4` when
possible, then compared under the network mask. -/
def cidrContains (net mask ip : List Nat) : Bool :=
  maskedEq net mask (match goTo4 ip with | some v => v | none => ip)

/-- The `privateRanges` CIDR list of `isPrivateIP` (plugin.go lines
335-342), as network bytes and mask bytes. -/
def privateRanges : List (List Nat × List Nat) :=
  [([10, 0, 0, 0], [255, 0, 0, 0]),
   ([172, 16, 0, 0], [255, 240, 0, 0]),
   ([192, 168, 0, 0], [255, 255, 0, 0]),
   ([127, 0, 0, 0], [255, 0, 0, 0]),
   ([169, 254, 0, 0], [255, 255, 0, 0]),
   ([0, 0, 0, 0], [255, 0, 0, 0])]

/-- The 16-byte all-ones mask (`/128`). -/
def fullMask16 : List Nat := List.replicate 16 255

/-- The bytes of `fd00:ec2::254` (AWS IMDSv2 IPv6 metadata address). -/
def awsMetadataV6 : List Nat := [253, 0, 14, 194, 0, 0, 0, 0, 0, 0, 0, 0, 0, 0, 2, 84]

/-- The `cloudMetadata` CIDR list of `isPrivateIP` (plugin.go lines
345-348): `169.254.169.254/32` and `fd00:ec2::254/128`. -/
def cloudMetadataRanges : List (List Nat × List Nat) :=
  [([169, 254, 169, 254], [255, 255, 255, 255]),
   (awsMetadataV6, fullMask16)]

/-- The bytes of `::1`. -/
def ipv6Loopback : List Nat := [0, 0, 0, 0, 0, 0, 0, 0, 0, 0, 0, 0, 0, 0, 0, 1]

/-- `net.IP.IsLoopback`. -/
def ipIsLoopback (ip : List Nat) : Bool :=
  match goTo4 ip with
  | some l => match l with | a :: _ => a == 127 | [] => false
  | none => ip == ipv6Loopback

/-- `net.IP.IsLinkLocalUnicast`: `169.254.0.0/16` for IPv4, `fe80::/10`
for 16-byte addresses. -/
def ipIsLinkLocalUnicast (ip : List Nat) : Bool :=
  match goTo4 ip with
  | some l => match l with | a :: b :: _ => a == 169 && b == 254 | _ => false
  | none =>
    match ip with
    | b0 :: b1 :: rest => rest.length == 14 && b0 == 254 && (b1 &&& 192 == 128)
    | _ => false

/-- `net.IP.IsLinkLocalMulticast`: `224.0.0.0/24` for IPv4, first byte
`0xff` with scope nibble `2` for 16-byte addresses. -/
def ipIsLinkLocalMulticast (ip : List Nat) : Bool :=
  match goTo4 ip with
  | some l => match l with | a :: b :: c :: _ => a == 224 && b == 0 && c == 0 | _ => false
  | none =>
    match ip with
    | b0 :: b1 :: rest => rest.length == 14 && b0 == 255 && (b1 &&& 15 == 2)
    | _ => false

/-- `net.IP.IsPrivate`: RFC 1918 ranges for IPv4, `fc00::/7` for 16-byte
addresses. -/
def ipIsPrivateRFC (ip : List Nat) : Bool :=
  match goTo4 ip with
  | some l =>
    match l with
    | a :: b :: _ => a == 10 || (a == 172 && (b &&& 240 == 16)) || (a == 192 && b == 168)
    | _ => false
  | none =>
    match ip with
    | b0 :: rest => rest.length == 15 && (b0 &&& 254 == 252)
    | _ => false

/-- `isPrivateIP` from `plugin.go` (lines 333-368): membership in one of
the listed CIDR ranges, or one of the four `net.IP` classification
predicates. -/
def isPrivateIP (ip : List Nat) : Bool :=
  ((privateRanges ++ cloudMetadataRanges).any fun r => cidrContains r.1 r.2 ip) ||
  ipIsLoopback ip || ipIsLinkLocalUnicast ip || ipIsLinkLocalMulticast ip ||
  ipIsPrivateRFC ip

/-- The private/metadata address set enumerated by claim C3:
`10.0.0.0/8`, `172.16.0.0/12`, `192.168.0.0/16`, `127.0.0.0/8`,
`169.254.0.0/16`, `0.0.0.0/8`, IPv6 loopback, IPv6 link-local (unicast
`fe80::/10` and link-local-scope multicast), IPv6 unique-local
(`fc00::/7`), and the two cloud-metadata addresses `169.254.169.254` and
`fd00:ec2::254`.  IPv4-mapped 16-byte forms denote their embedded IPv4
address, as in Go. -/
def c3ClaimPrivate (ip : List Nat) : Bool :=
  match goTo4 ip with
  | some l =>
    match l with
    | [a, b, c, d] =>
      a == 10 || (decide (16 ≤ b) && decide (b < 32) && a == 172) || (a == 192 && b == 168) ||
      a == 127 || (a == 169 && b == 254) || a == 0 ||
      (a == 169 && b == 254 && c == 169 && d == 254)
    | _ => false
  | none =>
    match ip with
    | [b0, b1, _, _, _, _, _, _, _, _, _, _, _, _, _, _] =>
      ip == ipv6Loopback ||
      (b0 == 254 && decide (128 ≤ b1) && decide (b1 < 192)) ||
      (b0 == 255 && b1 % 16 == 2) ||
      (decide (252 ≤ b0) && decide (b0 ≤ 253)) ||
      ip == awsMetadataV6
    | _ => false

/-- The set of claim C3 extended by the IPv4 link-local multicast range
`224.0.0.0/24` — the minimal amendment the code forces. -/
def c3AmendedPrivate (ip : List Nat) : Bool :=
  c3ClaimPrivate ip ||
  (match goTo4 ip with
   | some l => match l with | a :: b :: c :: _ => a == 224 && b == 0 && c == 0 | _ => false
   | none => false)

set_option maxRecDepth 4096 in
theorem byteAnd255 : ∀ b < 256, b &&& 255 = b := by decide

set_option maxRecDepth 4096 in
theorem maskAnd240_iff : ∀ b < 256, ((16 : Nat) &&& 240 = b &&& 240 ↔ 16 ≤ b ∧ b < 32) := by
  decide

set_option maxRecDepth 4096 in
theorem and240_iff : ∀ b < 256, (b &&& 240 = 16 ↔ 16 ≤ b ∧ b < 32) := by decide

set_option maxRecDepth 4096 in
theorem and192_iff : ∀ b < 256, (b &&& 192 = 128 ↔ 128 ≤ b ∧ b < 192) := by decide

set_option maxRecDepth 4096 in
theorem and15_iff : ∀ b < 256, (b &&& 15 = 2 ↔ b % 16 = 2) := by decide

set_option maxRecDepth 4096 in
theorem and254_iff : ∀ b < 256, (b &&& 254 = 252 ↔ 252 ≤ b ∧ b ≤ 253) := by decide

set_option maxHeartbeats 1000000 in
theorem isPrivate4eq (b0 b1 b2 b3 : Nat) (h0 : b0 < 256) (h1 : b1 < 256)
    (h2 : b2 < 256) (h3 : b3 < 256) :
    isPrivateIP [b0, b1, b2, b3] = c3AmendedPrivate [b0, b1, b2, b3] := by
  rw [Bool.eq_iff_iff]
  simp only [isPrivateIP, c3AmendedPrivate, c3ClaimPrivate, privateRanges, cloudMetadataRanges,
    awsMetadataV6, fullMask16, ipv6Loopback, cidrContains, goTo4, ipIsLoopback,
    ipIsLinkLocalUnicast, ipIsLinkLocalMulticast, ipIsPrivateRFC, maskedEq,
    List.cons_append, List.nil_append, List.any_cons, List.any_nil,
    List.replicate, Bool.or_eq_true, Bool.and_eq_true, beq_iff_eq, decide_eq_true_eq,
    byteAnd255 b0 h0, byteAnd255 b1 h1, byteAnd255 b2 h2, byteAnd255 b3 h3,
    maskAnd240_iff b1 h1, and240_iff b1 h1, Nat.and_zero,
    byteAnd255 10 (by norm_num), byteAnd255 172 (by norm_num),
    byteAnd255 192 (by norm_num), byteAnd255 168 (by norm_num), byteAnd255 127 (by norm_num),
    byteAnd255 169 (by norm_num), byteAnd255 254 (by norm_num), byteAnd255 0 (by norm_num),
    byteAnd255 253 (by norm_num), byteAnd255 14 (by norm_num), byteAnd255 194 (by norm_num),
    byteAnd255 2 (by norm_num), byteAnd255 84 (by norm_num), byteAnd255 255 (by norm_num)]
  simp only [Bool.false_eq_true, and_false, false_and, and_true, true_and, or_false, false_or]
  simp [eq_comm, or_comm, or_assoc, or_left_comm, and_comm, and_assoc, and_left_comm]

set_option maxHeartbeats 1000000 in
theorem isPrivate16eq (b0 b1 b2 b3 b4 b5 b6 b7 b8 b9 b10 b11 b12 b13 b14 b15 : Nat)
    (h0 : b0 < 256) (h1 : b1 < 256) (h2 : b2 < 256) (h3 : b3 < 256)
    (h4 : b4 < 256) (h5 : b5 < 256) (h6 : b6 < 256) (h7 : b7 < 256)
    (h8 : b8 < 256) (h9 : b9 < 256) (h10 : b10 < 256) (h11 : b11 < 256)
    (h12 : b12 < 256) (h13 : b13 < 256) (h14 : b14 < 256) (h15 : b15 < 256) :
    isPrivateIP [b0, b1, b2, b3, b4, b5, b6, b7, b8, b9, b10, b11, b12, b13, b14, b15] =
      c3AmendedPrivate [b0, b1, b2, b3, b4, b5, b6, b7, b8, b9, b10, b11, b12, b13, b14, b15] := by
  by_cases hm : b0 = 0 ∧ b1 = 0 ∧ b2 = 0 ∧ b3 = 0 ∧ b4 = 0 ∧ b5 = 0 ∧ b6 = 0 ∧ b7 = 0 ∧
      b8 = 0 ∧ b9 = 0 ∧ b10 = 255 ∧ b11 = 255
  · obtain ⟨e0, e1, e2, e3, e4, e5, e6, e7, e8, e9, e10, e11⟩ := hm
    subst e0 e1 e2 e3 e4 e5 e6 e7 e8 e9 e10 e11
    rw [Bool.eq_iff_iff]
    simp only [isPrivateIP, c3AmendedPrivate, c3ClaimPrivate, privateRanges, cloudMetadataRanges,
      awsMetadataV6, fullMask16, ipv6Loopback, cidrContains, goTo4, ipIsLoopback,
      ipIsLinkLocalUnicast, ipIsLinkLocalMulticast, ipIsPrivateRFC, maskedEq,
      List.cons_append, List.nil_append, List.any_cons, List.any_nil,
      List.replicate, Bool.or_eq_true, Bool.and_eq_true, beq_iff_eq, decide_eq_true_eq,
      eq_self_iff_true, and_self, and_true, true_and, if_true,
      byteAnd255 b12 h12, byteAnd255 b13 h13, byteAnd255 b14 h14, byteAnd255 b15 h15,
      maskAnd240_iff b13 h13, and240_iff b13 h13, Nat.and_zero,
      byteAnd255 10 (by norm_num), byteAnd255 172 (by norm_num),
      byteAnd255 192 (by norm_num), byteAnd255 168 (by norm_num), byteAnd255 127 (by norm_num),
      byteAnd255 169 (by norm_num), byteAnd255 254 (by norm_num), byteAnd255 0 (by norm_num),
      byteAnd255 253 (by norm_num), byteAnd255 14 (by norm_num), byteAnd255 194 (by norm_num),
      byteAnd255 2 (by norm_num), byteAnd255 84 (by norm_num), byteAnd255 255 (by norm_num)]
    simp only [Bool.false_eq_true, and_false, false_and, and_true, true_and, or_false, false_or]
    simp [eq_comm, or_comm, or_assoc, or_left_comm, and_comm, and_assoc, and_left_comm]
  · rw [Bool.eq_iff_iff]
    simp only [isPrivateIP, c3AmendedPrivate, c3ClaimPrivate, privateRanges, cloudMetadataRanges,
      awsMetadataV6, fullMask16, ipv6Loopback, cidrContains, goTo4, ipIsLoopback,
      ipIsLinkLocalUnicast, ipIsLinkLocalMulticast, ipIsPrivateRFC, maskedEq,
      List.cons_append, List.nil_append, List.any_cons, List.any_nil,
      List.replicate, Bool.or_eq_true, Bool.and_eq_true, beq_iff_eq, decide_eq_true_eq,
      if_neg hm, List.cons.injEq, List.length_cons, List.length_nil,
      byteAnd255 b0 h0, byteAnd255 b1 h1, byteAnd255 b2 h2, byteAnd255 b3 h3,
      byteAnd255 b4 h4, byteAnd255 b5 h5, byteAnd255 b6 h6, byteAnd255 b7 h7,
      byteAnd255 b8 h8, byteAnd255 b9 h9, byteAnd255 b10 h10, byteAnd255 b11 h11,
      byteAnd255 b12 h12, byteAnd255 b13 h13, byteAnd255 b14 h14, byteAnd255 b15 h15,
      and192_iff b1 h1, and15_iff b1 h1, and254_iff b0 h0, Nat.and_zero,
      byteAnd255 10 (by norm_num), byteAnd255 172 (by norm_num),
      byteAnd255 192 (by norm_num), byteAnd255 168 (by norm_num), byteAnd255 127 (by norm_num),
      byteAnd255 169 (by norm_num), byteAnd255 254 (by norm_num), byteAnd255 0 (by norm_num),
      byteAnd255 253 (by norm_num), byteAnd255 14 (by norm_num), byteAnd255 194 (by norm_num),
      byteAnd255 2 (by norm_num), byteAnd255 84 (by norm_num), byteAnd255 255 (by norm_num)]
    simp only [Bool.false_eq_true, and_false, false_and, and_true, true_and, or_false, false_or]
    constructor <;> rintro ((((h | h) | h) | h) | h) <;> omega

/-- For well-formed resolver results (4- or 16-byte addresses with byte
values), the code's `isPrivateIP` coincides with the amended claim set. -/
theorem isPrivateIP_eq_c3Amended (ip : List Nat)
    (hlen : ip.length = 4 ∨ ip.length = 16) (hb : ∀ x ∈ ip, x < 256) :
    isPrivateIP ip = c3AmendedPrivate ip := by
  rcases ip with _ | ⟨b0, _ | ⟨b1, _ | ⟨b2, _ | ⟨b3, _ | ⟨b4, _ | ⟨b5, _ | ⟨b6, _ | ⟨b7,
    _ | ⟨b8, _ | ⟨b9, _ | ⟨b10, _ | ⟨b11, _ | ⟨b12, _ | ⟨b13, _ | ⟨b14, _ | ⟨b15,
    _ | ⟨b16, rest⟩⟩⟩⟩⟩⟩⟩⟩⟩⟩⟩⟩⟩⟩⟩⟩⟩
  · simp at hlen
  · simp at hlen
  · simp at hlen
  · simp at hlen
  · exact isPrivate4eq b0 b1 b2 b3 (hb b0 (by simp)) (hb b1 (by simp))
      (hb b2 (by simp)) (hb b3 (by simp))
  · simp at hlen
  · simp at hlen
  · simp at hlen
  · simp at hlen
  · simp at hlen
  · simp at hlen
  · simp at hlen
  · simp at hlen
  · simp at hlen
  · simp at hlen
  · simp at hlen
  · exact isPrivate16eq b0 b1 b2 b3 b4 b5 b6 b7 b8 b9 b10 b11 b12 b13 b14 b15
      (hb b0 (by simp)) (hb b1 (by simp)) (hb b2 (by simp)) (hb b3 (by simp))
      (hb b4 (by simp)) (hb b5 (by simp)) (hb b6 (by simp)) (hb b7 (by simp))
      (hb b8 (by simp)) (hb b9 (by simp)) (hb b10 (by simp)) (hb b11 (by simp))
      (hb b12 (by simp)) (hb b13 (by simp)) (hb b14 (by simp)) (hb b15 (by simp))
  · simp only [List.length_cons, List.length_nil] at hlen
    omega

/-! ### Registry URL validation (a `net/url` fragment and `validateRegistryURL`) -/

def isAlphaChar (c : Char) : Bool := ('a' ≤ c && c ≤ 'z') || ('A' ≤ c && c ≤ 'Z')

def isDigitChar (c : Char) : Bool := '0' ≤ c && c ≤ '9'

/-- ASCII lower-casing (schemes validated by `getScheme` are ASCII). -/
def toLowerAscii (c : Char) : Char :=
  if 'A' ≤ c ∧ c ≤ 'Z' then Char.ofNat (c.toNat + 32) else c

/-- The scanning loop of `net/url.getScheme`, with the scheme lower-cased
as `url.parse` does on return.  `first` is true exactly at index 0; `raw`
is kept to return the whole input when no scheme exists.  Result: scheme
characters and remainder. -/
def getSchemeLoop (raw : List Char) (first : Bool) (acc : List Char) :
    List Char → Except String (List Char × List Char)
  | [] => .ok ([], raw)
  | c :: rest =>
    if isAlphaChar c then getSchemeLoop raw false (c :: acc) rest
    else if isDigitChar c || c == '+' || c == '-' || c == '.' then
      if first then .ok ([], raw) else getSchemeLoop raw false (c :: acc) rest
    else if c == ':' then
      if first then .error "missing protocol scheme"
      else .ok (acc.reverse.map toLowerAscii, rest)
    else .ok ([], raw)

/-- `net/url.validOptionalPort`: empty, or `':'` followed by digits only. -/
def validOptionalPort (s : List Char) : Bool :=
  match s with
  | [] => true
  | c :: rest => c == ':' && rest.all isDigitChar

/-- Index of the last occurrence of `c` (Go `strings.LastIndexByte`). -/
def lastIdxOf (c : Char) (l : List Char) : Option Nat :=
  match l.reverse.findIdx? (fun x => x == c) with
  | some j => some (l.length - 1 - j)
  | none => none

/-- `net/url.parseHost` restricted to the checks relevant here: bracketed
hosts need a closing `']'` and a valid optional port; unbracketed hosts
need a valid optional port after the last `':'`.  Percent-escape and
userinfo validation of the Go original are not modelled. -/
def parseHostChecked (host : List Char) : Except String String :=
  if List.isPrefixOf ['['] host then
    match lastIdxOf ']' host with
    | none => .error "missing ']' in host"
    | some i =>
      if validOptionalPort (host.drop (i + 1)) then .ok (String.mk host)
      else .error "invalid port after host"
  else
    match lastIdxOf ':' host with
    | some i =>
      if validOptionalPort (host.drop i) then .ok (String.mk host)
      else .error "invalid port after host"
    | none => .ok (String.mk host)

/-- The parsed fields of `net/url.URL` used by the plugin. -/
structure GoURL where
  scheme : String
  host : String
deriving Repr, DecidableEq

/-- `net/url.Parse` restricted to scheme and host: fragment cut, control
bytes rejected, scheme scanned, query cut, the rootless-path colon check,
and the authority extracted between `"//"` and the next `'/'` with
userinfo before the last `'@'` dropped. -/
def urlParse (raw : String) : Except String GoURL :=
  let u := raw.data.takeWhile (fun c => c ≠ '#')
  if u.any (fun c => c.toNat < 32 || c.toNat == 127) then
    .error "net/url: invalid control character in URL"
  else
    match getSchemeLoop u true [] u with
    | .error e => .error e
    | .ok (schemeChars, rest0) =>
      let scheme := String.mk schemeChars
      let rest := rest0.takeWhile (fun c => c ≠ '?')
      if List.isPrefixOf ['/'] rest then
        if (scheme ≠ "" ∨ ¬ List.isPrefixOf ['/', '/', '/'] rest) ∧
            List.isPrefixOf ['/', '/'] rest then
          let authority := (rest.drop 2).takeWhile (fun c => c ≠ '/')
          let hostPart := match lastIdxOf '@' authority with
            | some i => authority.drop (i + 1)
            | none => authority
          match parseHostChecked hostPart with
          | .error e => .error e
          | .ok h => .ok ⟨scheme, h⟩
        else .ok ⟨scheme, ""⟩
      else
        if scheme ≠ "" then .ok ⟨scheme, ""⟩
        else if (rest.takeWhile (fun c => c ≠ '/')).contains ':' then
          .error "first path segment in URL cannot contain colon"
        else .ok ⟨scheme, ""⟩

/-- `net/url.URL.Hostname` via `splitHostPort`: strip a valid optional
port after the last `':'`, then strip enclosing brackets. -/
def goHostname (host : String) : String :=
  let l := host.data
  let h1 := match lastIdxOf ':' l with
    | some i => if validOptionalPort (l.drop i) then l.take i else l
    | none => l
  let h2 := if List.isPrefixOf ['['] h1 ∧ h1.getLast? = some ']' then (h1.drop 1).dropLast else h1
  String.mk h2

/-- The bare-registry-name pattern of `validateRegistryURL`:
`^[a-zA-Z][a-zA-Z0-9.-]*$`. -/
def validRegistryName (s : String) : Bool :=
  match s.data with
  | [] => false
  | c :: rest =>
    isAlphaChar c && rest.all (fun x => isAlphaChar x || isDigitChar x || x == '.' || x == '-')

/-- A DNS resolver as an input: `none` models a `net.LookupIP` error,
`some ips` the resolved addresses as byte lists. -/
def Resolver : Type := String → Option (List (List Nat))

/-- `validateRegistryURL` from `plugin.go` (lines 282-330), with the
resolver passed as an argument; `none` is the nil error. -/
def validateRegistryURL (resolve : Resolver) (registryURL : String) : Option String :=
  if goContains registryURL "://" = false then
    if validRegistryName registryURL then none else some "invalid registry name format"
  else
    match urlParse registryURL with
    | .error e => some ("invalid URL: " ++ e)
    | .ok u =>
      let host := goHostname u.host
      let isLocalhost := host == "localhost" || host == "127.0.0.1" || host == "::1"
      if (u.scheme ≠ "https" ∧ isLocalhost = false) ∧ u.scheme ≠ "sparse+https" then
        some ("only HTTPS URLs are allowed (got " ++ u.scheme ++ ")")
      else if isLocalhost then none
      else
        match resolve host with
        | none => none
        | some ips =>
          if ips.any isPrivateIP then some "URLs pointing to private networks are not allowed"
          else none

theorem registry_bareName_iff (resolve : Resolver) (s : String) (h : goContains s "://" = false) :
    validateRegistryURL resolve s = none ↔ validRegistryName s = true := by
  simp only [validateRegistryURL]
  rw [if_pos h]
  cases hv : validRegistryName s <;> simp [hv]

theorem registry_scheme_reject (resolve : Resolver) (s : String) (u : GoURL)
    (hcont : goContains s "://" = true) (hparse : urlParse s = .ok u)
    (h1 : u.scheme ≠ "https") (h2 : u.scheme ≠ "sparse+https")
    (hl1 : goHostname u.host ≠ "localhost") (hl2 : goHostname u.host ≠ "127.0.0.1")
    (hl3 : goHostname u.host ≠ "::1") :
    validateRegistryURL resolve s ≠ none := by
  have hLoc : (goHostname u.host == "localhost" || goHostname u.host == "127.0.0.1" ||
      goHostname u.host == "::1") = false := by
    simp [hl1, hl2, hl3]
  simp [validateRegistryURL, hcont, hparse, hLoc, h1, h2]

theorem registry_loopback_accept (resolve : Resolver) (s : String) (u : GoURL)
    (hcont : goContains s "://" = true) (hparse : urlParse s = .ok u)
    (hl : goHostname u.host = "localhost" ∨ goHostname u.host = "127.0.0.1" ∨
      goHostname u.host = "::1") :
    validateRegistryURL resolve s = none := by
  have hLoc : (goHostname u.host == "localhost" || goHostname u.host == "127.0.0.1" ||
      goHostname u.host == "::1") = true := by
    rcases hl with h | h | h <;> simp [h]
  simp [validateRegistryURL, hcont, hparse, hLoc]

theorem registry_failOpen (resolve : Resolver) (s : String) (u : GoURL)
    (hcont : goContains s "://" = true) (hparse : urlParse s = .ok u)
    (hs : u.scheme = "https" ∨ u.scheme = "sparse+https")
    (hl1 : goHostname u.host ≠ "localhost") (hl2 : goHostname u.host ≠ "127.0.0.1")
    (hl3 : goHostname u.host ≠ "::1")
    (hres : resolve (goHostname u.host) = none) :
    validateRegistryURL resolve s = none := by
  have hLoc : (goHostname u.host == "localhost" || goHostname u.host == "127.0.0.1" ||
      goHostname u.host == "::1") = false := by
    simp [hl1, hl2, hl3]
  rcases hs with h | h <;> simp [validateRegistryURL, hcont, hparse, hLoc, h, hres]

theorem registry_resolved_iff (resolve : Resolver) (s : String) (u : GoURL) (ips : List (List Nat))
    (hcont : goContains s "://" = true) (hparse : urlParse s = .ok u)
    (hs : u.scheme = "https" ∨ u.scheme = "sparse+https")
    (hl1 : goHostname u.host ≠ "localhost") (hl2 : goHostname u.host ≠ "127.0.0.1")
    (hl3 : goHostname u.host ≠ "::1")
    (hres : resolve (goHostname u.host) = some ips) :
    (validateRegistryURL resolve s = none ↔ ips.any isPrivateIP = false) := by
  have hLoc : (goHostname u.host == "localhost" || goHostname u.host == "127.0.0.1" ||
      goHostname u.host == "::1") = false := by
    simp [hl1, hl2, hl3]
  rcases hs with h | h <;>
    cases hp : ips.any isPrivateIP <;>
    simp [validateRegistryURL, hcont, hparse, hLoc, h, hres, hp]

/-- C2: `validateRegistryURL` accepts an input without a scheme separator
`"://"` if and only if it matches the bare-name pattern (leading letter,
then letters/digits/dot/dash); for parsed inputs with a scheme it rejects
every scheme other than `https` or `sparse+https` unless the URL's
hostname is exactly `"localhost"`, `"127.0.0.1"`, or `"::1"`, in which
case it accepts with any scheme; in particular it accepts
`"my-registry"`, `"https://host/path"` and `"sparse+https://host/index"`
(when the host does not resolve), `"http://localhost:8080/index"` and
`"http://127.0.0.1:8080/index"`, and rejects `"http://example.com"` and
`"my_bad!name"`. -/
theorem C2_registry_url_validation :
    (∀ (resolve : Resolver) (s : String), goContains s "://" = false →
        (validateRegistryURL resolve s = none ↔ validRegistryName s = true))
  ∧ (∀ (resolve : Resolver) (s : String) (u : GoURL),
        goContains s "://" = true → urlParse s = .ok u →
        u.scheme ≠ "https" → u.scheme ≠ "sparse+https" →
        goHostname u.host ≠ "localhost" → goHostname u.host ≠ "127.0.0.1" →
        goHostname u.host ≠ "::1" →
        validateRegistryURL resolve s ≠ none)
  ∧ (∀ (resolve : Resolver) (s : String) (u : GoURL),
        goContains s "://" = true → urlParse s = .ok u →
        (goHostname u.host = "localhost" ∨ goHostname u.host = "127.0.0.1" ∨
          goHostname u.host = "::1") →
        validateRegistryURL resolve s = none)
  ∧ (∀ resolve : Resolver, validateRegistryURL resolve "my-registry" = none)
  ∧ (∀ resolve : Resolver, resolve "host" = none →
        validateRegistryURL resolve "https://host/path" = none)
  ∧ (∀ resolve : Resolver, resolve "host" = none →
        validateRegistryURL resolve "sparse+https://host/index" = none)
  ∧ (∀ resolve : Resolver, validateRegistryURL resolve "http://localhost:8080/index" = none)
  ∧ (∀ resolve : Resolver, validateRegistryURL resolve "http://127.0.0.1:8080/index" = none)
  ∧ (∀ resolve : Resolver, validateRegistryURL resolve "http://example.com" ≠ none)
  ∧ (∀ resolve : Resolver, validateRegistryURL resolve "my_bad!name" ≠ none) := by
  refine ⟨registry_bareName_iff, registry_scheme_reject, registry_loopback_accept,
    fun _ => rfl, ?_, ?_, fun _ => rfl, fun _ => rfl,
    fun _ h => Option.noConfusion h, fun _ h => Option.noConfusion h⟩
  · intro r h
    have e : validateRegistryURL r "https://host/path" = (match r "host" with
      | none => none
      | some ips => if ips.any isPrivateIP then
          some "URLs pointing to private networks are not allowed" else none) := rfl
    rw [e, h]
  · intro r h
    have e : validateRegistryURL r "sparse+https://host/index" = (match r "host" with
      | none => none
      | some ips => if ips.any isPrivateIP then
          some "URLs pointing to private networks are not allowed" else none) := rfl
    rw [e, h]

/-- Witness for `C2_registry_url_validation` at the bare name
`"my-registry"`. -/
theorem C2_registry_url_validation_witness :
    validateRegistryURL (fun _ => none) "my-registry" = none :=
  (C2_registry_url_validation.1 (fun _ => none) "my-registry" (by decide)).mpr (by decide)

/-- C3 as stated is false at a concrete input: a resolver returning only
the IPv4 link-local multicast address `224.0.0.1` makes the code reject
the URL, yet `224.0.0.1` lies in none of the ranges the claim enumerates,
so the claimed "if and only if" says accept. -/
theorem C3_counterexample :
    validateRegistryURL (fun _ => some [[224, 0, 0, 1]]) "https://multicast.example/x" =
      some "URLs pointing to private networks are not allowed"
    ∧ c3ClaimPrivate [224, 0, 0, 1] = false := ⟨rfl, rfl⟩

/-- C3 (amended): for a registry URL with an allowed scheme (`https` or
`sparse+https`) and a non-loopback hostname, `validateRegistryURL` with
the resolver as an input accepts when resolution returns an error
(fail-open); when resolution returns addresses, it rejects if and only if
at least one returned address lies in the claim's enumerated
private/reserved/link-local/metadata set extended by the IPv4 link-local
multicast range `224.0.0.0/24`; loopback hostnames (`localhost`,
`127.0.0.1`, `::1`) skip the resolution check entirely. -/
theorem C3_dns_resolution_policy :
    (∀ (resolve : Resolver) (s : String) (u : GoURL),
        goContains s "://" = true → urlParse s = .ok u →
        (u.scheme = "https" ∨ u.scheme = "sparse+https") →
        goHostname u.host ≠ "localhost" → goHostname u.host ≠ "127.0.0.1" →
        goHostname u.host ≠ "::1" →
        (resolve (goHostname u.host) = none → validateRegistryURL resolve s = none)
        ∧ (∀ ips, resolve (goHostname u.host) = some ips →
            (∀ ip ∈ ips, (ip.length = 4 ∨ ip.length = 16) ∧ (∀ x ∈ ip, x < 256)) →
            (validateRegistryURL resolve s ≠ none ↔
              ∃ ip ∈ ips, c3AmendedPrivate ip = true)))
  ∧ (∀ (resolve : Resolver) (s : String) (u : GoURL),
        goContains s "://" = true → urlParse s = .ok u →
        (goHostname u.host = "localhost" ∨ goHostname u.host = "127.0.0.1" ∨
          goHostname u.host = "::1") →
        validateRegistryURL resolve s = none) := by
  refine ⟨fun resolve s u hcont hparse hs hl1 hl2 hl3 =>
    ⟨registry_failOpen resolve s u hcont hparse hs hl1 hl2 hl3, ?_⟩,
    registry_loopback_accept⟩
  intro ips hres hwf
  have base := registry_resolved_iff resolve s u ips hcont hparse hs hl1 hl2 hl3 hres
  constructor
  · intro hne
    cases hp : ips.any isPrivateIP with
    | false => exact absurd (base.mpr hp) hne
    | true =>
      rw [List.any_eq_true] at hp
      obtain ⟨ip, hmem, hip⟩ := hp
      refine ⟨ip, hmem, ?_⟩
      rw [← isPrivateIP_eq_c3Amended ip (hwf ip hmem).1 (hwf ip hmem).2]
      exact hip
  · rintro ⟨ip, hmem, hamend⟩ hnone
    have hall : ips.any isPrivateIP = false := base.mp hnone
    have hfalse : isPrivateIP ip = false := by
      by_contra hc
      have : isPrivateIP ip = true := by
        cases h : isPrivateIP ip
        · exact absurd h hc
        · rfl
      have : ips.any isPrivateIP = true := List.any_eq_true.mpr ⟨ip, hmem, this⟩
      rw [this] at hall
      exact Bool.noConfusion hall
    rw [isPrivateIP_eq_c3Amended ip (hwf ip hmem).1 (hwf ip hmem).2] at hfalse
    rw [hamend] at hfalse
    exact Bool.noConfusion hfalse

/-- Witness for `C3_dns_resolution_policy`: fail-open acceptance at
`"https://host/path"` with a resolver that errors. -/
theorem C3_dns_resolution_policy_witness :
    validateRegistryURL (fun _ => none) "https://host/path" = none :=
  ((C3_dns_resolution_policy.1 (fun _ => none) "https://host/path" ⟨"https", "host"⟩
    (by decide) rfl (Or.inl rfl) (by decide) (by decide) (by decide)).1) rfl

/-! ### Orchestration (`validateConfig`, `publish`, `Execute`) -/

/-- `validateConfig` from `plugin.go` (lines 243-257). -/
def validateConfig (resolve : Resolver) (cfg : Config) : Option String :=
  match validatePath cfg.manifestPath with
  | some err => some ("invalid manifest_path: " ++ err)
  | none =>
    if cfg.registry ≠ "" then
      match validateRegistryURL resolve cfg.registry with
      | some err => some ("invalid registry: " ++ err)
      | none => none
    else none

/-- One invocation of the `CommandExecutor` interface. -/
inductive ExecCall where
  | run (name : String) (args : List String)
  | runInDir (dir name : String) (args : List String)
deriving Repr, DecidableEq

/-- A command executor as an input: combined output and optional error. -/
def Executor : Type := ExecCall → String × Option String

/-- A value of the `Outputs` map (`map[string]any` holds strings and
booleans here). -/
inductive OutVal where
  | str (s : String)
  | bool (b : Bool)
deriving Repr, DecidableEq

/-- `plugin.ExecuteResponse`, with the outputs map as an association list
in insertion order. -/
structure ExecuteResponse where
  success : Bool
  message : String
  error : String
  outputs : List (String × OutVal)
deriving Repr, DecidableEq

/-- The release-context field the plugin reads. -/
structure ReleaseContext where
  version : String
deriving Repr, DecidableEq

/-- `getRegistryName` from `plugin.go` (lines 235-240). -/
def getRegistryName (cfg : Config) : String :=
  if cfg.registry ≠ "" then cfg.registry else "crates.io"

/-- `strings.TrimPrefix s p`: drop `p` from the front of `s` when present. -/
def goTrimLeading (p s : String) : String :=
  if goStartsWith s p then String.mk (s.data.drop p.data.length) else s

/-- `publish` from `plugin.go` (lines 110-180), returning the response
together with the list of executor invocations made (the execution
trace). -/
def publish (executor : Executor) (resolve : Resolver) (cfg : Config)
    (releaseCtx : ReleaseContext) (dryRun : Bool) : ExecuteResponse × List ExecCall :=
  match validateConfig resolve cfg with
  | some err =>
    (⟨false, "", "configuration validation failed: " ++ err, []⟩, [])
  | none =>
    let args := buildPublishArgs cfg
    let version := goTrimLeading "v" releaseCtx.version
    if dryRun then
      (⟨true, "Would publish crate version " ++ version ++ " to " ++ getRegistryName cfg, "",
        [("version", .str version), ("registry", .str cfg.registry),
         ("manifest_path", .str cfg.manifestPath), ("allow_dirty", .bool cfg.allowDirty),
         ("no_verify", .bool cfg.noVerify),
         ("command", .str ("cargo publish " ++ goJoin " " args))]⟩, [])
    else if cfg.token = "" then
      (⟨false, "",
        "no API token provided: set token in config or CARGO_REGISTRY_TOKEN environment variable",
        []⟩, [])
    else
      let workDir := if cfg.manifestPath ≠ "" ∧ cfg.manifestPath ≠ "Cargo.toml" then
        goDir cfg.manifestPath else ""
      let call := if workDir ≠ "" then ExecCall.runInDir workDir "cargo" args
        else ExecCall.run "cargo" args
      let res := executor call
      match res.2 with
      | some e =>
        (⟨false, "", "cargo publish failed: " ++ e ++ "\nOutput: " ++ res.1, []⟩, [call])
      | none =>
        (⟨true, "Published crate version " ++ version ++ " to " ++ getRegistryName cfg, "",
          [("version", .str version), ("registry", .str cfg.registry),
           ("output", .str res.1)]⟩, [call])

/-- A lifecycle hook: the handled `HookPostPublish` or any other hook by
name. -/
inductive Hook where
  | postPublish
  | other (name : String)
deriving Repr, DecidableEq

/-- `plugin.ExecuteRequest`; the raw configuration map is parsed by
external SDK helpers (`parseConfig`), so the parsed `Config` stands in
for the map. -/
structure ExecuteRequest where
  hook : Hook
  config : Config
  context : ReleaseContext
  dryRun : Bool

/-- `Execute` from `plugin.go` (lines 95-107): hook dispatch. -/
def Execute (executor : Executor) (resolve : Resolver) (req : ExecuteRequest) :
    ExecuteResponse × List ExecCall :=
  match req.hook with
  | .postPublish => publish executor resolve req.config req.context req.dryRun
  | .other name => (⟨true, "Hook " ++ name ++ " not handled", "", []⟩, [])

/-- C1: for every (parsed) configuration and release context, executing
the supported `post-publish` hook in preview (dry-run) mode never calls
the command executor — the trace of executor invocations is empty whether
validation succeeds or fails, for every executor and resolver. -/
theorem C1_preview_no_execution (executor : Executor) (resolve : Resolver)
    (cfg : Config) (ctx : ReleaseContext) :
    (Execute executor resolve ⟨.postPublish, cfg, ctx, true⟩).2 = [] := by
  show (publish executor resolve cfg ctx true).2 = []
  cases hv : validateConfig resolve cfg <;> simp [publish, hv]

/-- C5: for every valid configuration whose resolved token is empty,
real-mode execution of the hook fails with the missing-credential error
and never calls the executor, while preview mode on the same
configuration succeeds (the token check is execution-only). -/
theorem C5_missing_token (executor : Executor) (resolve : Resolver)
    (cfg : Config) (ctx : ReleaseContext)
    (hvalid : validateConfig resolve cfg = none) (htok : cfg.token = "") :
    (publish executor resolve cfg ctx false).1.success = false
    ∧ (publish executor resolve cfg ctx false).1.error =
        "no API token provided: set token in config or CARGO_REGISTRY_TOKEN environment variable"
    ∧ (publish executor resolve cfg ctx false).2 = []
    ∧ (publish executor resolve cfg ctx true).1.success = true := by
  simp [publish, hvalid, htok]

/-- Witness for `C5_missing_token` at the default configuration with no
token. -/
theorem C5_missing_token_witness :
    (publish (fun _ => ("", none)) (fun _ => none)
      ⟨"", "", false, false, "Cargo.toml", [], false, false, 0⟩ ⟨"v1.0.0"⟩ false).1.success = false
    ∧ (publish (fun _ => ("", none)) (fun _ => none)
      ⟨"", "", false, false, "Cargo.toml", [], false, false, 0⟩ ⟨"v1.0.0"⟩ false).1.error =
        "no API token provided: set token in config or CARGO_REGISTRY_TOKEN environment variable"
    ∧ (publish (fun _ => ("", none)) (fun _ => none)
      ⟨"", "", false, false, "Cargo.toml", [], false, false, 0⟩ ⟨"v1.0.0"⟩ false).2 = []
    ∧ (publish (fun _ => ("", none)) (fun _ => none)
      ⟨"", "", false, false, "Cargo.toml", [], false, false, 0⟩ ⟨"v1.0.0"⟩ true).1.success = true :=
  C5_missing_token (fun _ => ("", none)) (fun _ => none)
    ⟨"", "", false, false, "Cargo.toml", [], false, false, 0⟩ ⟨"v1.0.0"⟩ rfl rfl

theorem goPathClean_ne_empty (p : String) : goPathClean p ≠ "" := by
  unfold goPathClean
  split
  · intro h; exact String.noConfusion h (fun hd => List.noConfusion hd)
  · by_cases hr : goIsAbs p
    · simp only [hr, if_true]
      intro h
      exact List.noConfusion (congrArg String.data h)
    · simp only [hr, Bool.false_eq_true, if_false]
      split
      · intro h; exact List.noConfusion (congrArg String.data h)
      · intro h
        rename_i hbody
        exact hbody (by simpa using congrArg String.data h)

theorem goDir_ne_empty (p : String) : goDir p ≠ "" := by
  unfold goDir
  split <;> exact goPathClean_ne_empty _

/-- C7: in real-mode execution with a token, a non-default manifest path
makes the single executor call `RunInDir` with `filepath.Dir` of the
manifest path as working directory, while the default path `"Cargo.toml"`
or the empty path makes it a plain `Run`; and
`filepath.Dir "crates/lib/Cargo.toml" = "crates/lib"`. -/
theorem C7_working_directory (executor : Executor) (resolve : Resolver)
    (cfg : Config) (ctx : ReleaseContext)
    (hvalid : validateConfig resolve cfg = none) (htok : cfg.token ≠ "") :
    (cfg.manifestPath ≠ "" ∧ cfg.manifestPath ≠ "Cargo.toml" →
      (publish executor resolve cfg ctx false).2 =
        [ExecCall.runInDir (goDir cfg.manifestPath) "cargo" (buildPublishArgs cfg)])
    ∧ ((cfg.manifestPath = "" ∨ cfg.manifestPath = "Cargo.toml") →
      (publish executor resolve cfg ctx false).2 =
        [ExecCall.run "cargo" (buildPublishArgs cfg)])
    ∧ goDir "crates/lib/Cargo.toml" = "crates/lib" := by
  refine ⟨?_, ?_, by decide⟩
  · intro hmp
    cases hres : (executor (ExecCall.runInDir (goDir cfg.manifestPath) "cargo"
        (buildPublishArgs cfg))).2 <;>
      simp [publish, hvalid, htok, hmp.1, hmp.2, goDir_ne_empty, hres]
  · rintro (h | h) <;>
      cases hres : (executor (ExecCall.run "cargo" (buildPublishArgs cfg))).2 <;>
      simp [publish, hvalid, htok, h, hres]

theorem string_data_append (s t : String) : (s ++ t).data = s.data ++ t.data := rfl

/-- C8: the version reported in the response message and outputs — in
preview mode, and in real mode on success — is the context version with
one leading `"v"` stripped; `"v1.2.3"` reports as `"1.2.3"` and
`"1.2.3"` is unchanged. -/
theorem C8_version_normalization (executor : Executor) (resolve : Resolver)
    (cfg : Config) (ctx : ReleaseContext) (hvalid : validateConfig resolve cfg = none) :
    ((publish executor resolve cfg ctx true).1.message =
      "Would publish crate version " ++ goTrimLeading "v" ctx.version ++ " to " ++
        getRegistryName cfg)
    ∧ ((publish executor resolve cfg ctx true).1.outputs.lookup "version" =
        some (.str (goTrimLeading "v" ctx.version)))
    ∧ (cfg.token ≠ "" → (publish executor resolve cfg ctx false).1.success = true →
        (publish executor resolve cfg ctx false).1.message =
          "Published crate version " ++ goTrimLeading "v" ctx.version ++ " to " ++
            getRegistryName cfg
        ∧ (publish executor resolve cfg ctx false).1.outputs.lookup "version" =
            some (.str (goTrimLeading "v" ctx.version)))
    ∧ goTrimLeading "v" "v1.2.3" = "1.2.3" ∧ goTrimLeading "v" "1.2.3" = "1.2.3" := by
  refine ⟨by simp [publish, hvalid], by simp [publish, hvalid, List.lookup], ?_,
    by decide, by decide⟩
  intro htok hsucc
  by_cases hmp : cfg.manifestPath ≠ "" ∧ cfg.manifestPath ≠ "Cargo.toml"
  · cases hres : (executor (ExecCall.runInDir (goDir cfg.manifestPath) "cargo"
        (buildPublishArgs cfg))).2 with
    | none =>
      constructor <;>
        simp [publish, hvalid, htok, hmp.1, hmp.2, goDir_ne_empty, hres, List.lookup]
    | some e =>
      exfalso
      simp [publish, hvalid, htok, hmp.1, hmp.2, goDir_ne_empty, hres] at hsucc
  · cases hres : (executor (ExecCall.run "cargo" (buildPublishArgs cfg))).2 with
    | none =>
      constructor <;> simp [publish, hvalid, htok, if_neg hmp, hres, List.lookup]
    | some e =>
      exfalso
      simp [publish, hvalid, htok, if_neg hmp, hres] at hsucc

/-- Witness for `C8_version_normalization` at version `"v1.2.3"`. -/
theorem C8_version_normalization_witness :
    (publish (fun _ => ("", none)) (fun _ => none)
      ⟨"", "", false, false, "Cargo.toml", [], false, false, 0⟩ ⟨"v1.2.3"⟩ true).1.message =
      "Would publish crate version " ++ goTrimLeading "v" "v1.2.3" ++ " to " ++
        getRegistryName ⟨"", "", false, false, "Cargo.toml", [], false, false, 0⟩ :=
  (C8_version_normalization (fun _ => ("", none)) (fun _ => none)
    ⟨"", "", false, false, "Cargo.toml", [], false, false, 0⟩ ⟨"v1.2.3"⟩ rfl).1

theorem publishArgs_head (cfg : Config) : ∃ t, buildPublishArgs cfg = "publish" :: t := by
  simp only [buildPublishArgs]
  rw [ite_append_out, ite_append_out, ite_append_out, ite_append_out, ite_append_out,
    ite_append_out, ite_append_out, ite_append_out, ite_append_out]
  exact ⟨_, rfl⟩

theorem publishArgs_token_shape (cfg : Config) (h : cfg.token ≠ "") :
    ∃ t, buildPublishArgs cfg = "publish" :: "--token" :: cfg.token :: t := by
  simp only [buildPublishArgs]
  rw [ite_append_out, ite_append_out, ite_append_out, ite_append_out, ite_append_out,
    ite_append_out, ite_append_out, ite_append_out, ite_append_out, if_pos h]
  exact ⟨_, rfl⟩

/-- C9: for every valid configuration, the dry-run `"command"` output is
the literal `"cargo publish "` followed by the space-join of
`buildPublishArgs`; since that list itself starts with `"publish"`, the
previewed text always starts with `"cargo publish publish"`, and when the
resolved token is non-empty the text contains the token verbatim. -/
theorem C9_command_preview (executor : Executor) (resolve : Resolver)
    (cfg : Config) (ctx : ReleaseContext) (hvalid : validateConfig resolve cfg = none) :
    ((publish executor resolve cfg ctx true).1.outputs.lookup "command" =
      some (.str ("cargo publish " ++ goJoin " " (buildPublishArgs cfg))))
    ∧ goStartsWith ("cargo publish " ++ goJoin " " (buildPublishArgs cfg))
        "cargo publish publish" = true
    ∧ (cfg.token ≠ "" → ∃ pre post : List Char,
        ("cargo publish " ++ goJoin " " (buildPublishArgs cfg)).data =
          pre ++ cfg.token.data ++ post) := by
  refine ⟨by simp [publish, hvalid, List.lookup], ?_, ?_⟩
  · obtain ⟨t, ht⟩ := publishArgs_head cfg
    rw [ht]
    cases t <;> rfl
  · intro htok
    obtain ⟨t, ht⟩ := publishArgs_token_shape cfg htok
    rw [ht]
    cases t with
    | nil =>
      refine ⟨"cargo publish ".data ++ ("publish".data ++ (" ".data ++
        ("--token".data ++ " ".data))), [], ?_⟩
      simp [goJoin, string_data_append, List.append_assoc]
    | cons y ys =>
      refine ⟨"cargo publish ".data ++ ("publish".data ++ (" ".data ++
        ("--token".data ++ " ".data))), " ".data ++ (goJoin " " (y :: ys)).data, ?_⟩
      simp [goJoin, string_data_append, List.append_assoc]

/-- Witness for `C9_command_preview` at a configuration with token
`"tok"`. -/
theorem C9_command_preview_witness :
    (publish (fun _ => ("", none)) (fun _ => none)
      ⟨"tok", "", false, false, "Cargo.toml", [], false, false, 0⟩ ⟨"v1.0.0"⟩ true).1.outputs.lookup
        "command" =
      some (.str ("cargo publish " ++ goJoin " "
        (buildPublishArgs ⟨"tok", "", false, false, "Cargo.toml", [], false, false, 0⟩))) :=
  (C9_command_preview (fun _ => ("", none)) (fun _ => none)
    ⟨"tok", "", false, false, "Cargo.toml", [], false, false, 0⟩ ⟨"v1.0.0"⟩ rfl).1

/-- C10: the default-manifest-path comparison is an exact string match on
the uncleaned value: `"./Cargo.toml"` passes path validation (its cleaned
form is `"Cargo.toml"`) yet is treated as non-default, so
`"--manifest-path ./Cargo.toml"` is emitted and real-mode execution runs
the command via `RunInDir` with working directory `"."`. -/
theorem C10_nondefault_dot_slash :
    validatePath "./Cargo.toml" = none
    ∧ goPathClean "./Cargo.toml" = "Cargo.toml"
    ∧ buildPublishArgs ⟨"t", "", false, false, "./Cargo.toml", [], false, false, 0⟩ =
        ["publish", "--token", "t", "--manifest-path", "./Cargo.toml"]
    ∧ (publish (fun _ => ("ok", none)) (fun _ => none)
        ⟨"t", "", false, false, "./Cargo.toml", [], false, false, 0⟩ ⟨"v1.0.0"⟩ false).2 =
        [ExecCall.runInDir "." "cargo"
          ["publish", "--token", "t", "--manifest-path", "./Cargo.toml"]] := by
  refine ⟨rfl, rfl, rfl, rfl⟩

/-- Witness for `C7_working_directory` at manifest path
`"crates/lib/Cargo.toml"`. -/
theorem C7_working_directory_witness :
    (publish (fun _ => ("ok", none)) (fun _ => none)
      ⟨"t", "", false, false, "crates/lib/Cargo.toml", [], false, false, 0⟩ ⟨"v1.0.0"⟩ false).2 =
      [ExecCall.runInDir (goDir "crates/lib/Cargo.toml") "cargo"
        (buildPublishArgs ⟨"t", "", false, false, "crates/lib/Cargo.toml", [], false, false, 0⟩)] :=
  (C7_working_directory (fun _ => ("ok", none)) (fun _ => none)
    ⟨"t", "", false, false, "crates/lib/Cargo.toml", [], false, false, 0⟩ ⟨"v1.0.0"⟩
    rfl (by decide)).1 (by decide)

end Crates
